import Mathlib

/-!
Verification of the GitHub-Kanban polling/caching/aggregation core.

This file gives a shallow embedding of the core pipeline of the repository
(the conditional-fetch client `src/github/client.ts`, the update scheduler
`src/services/scheduler.ts`, and the feed builder `src/services/feed.ts`)
and proves the stated properties of that pipeline.

Modelling conventions:
- A JS `Map` is modelled as an insertion-ordered association list
  (`List (String × α)`); `set` on an existing key replaces the value in
  place, otherwise it appends, exactly like a JS `Map`.
- Network calls are suspension points whose outcomes are external inputs:
  a function under verification receives the settled results of the
  `fetch` calls it performs (`SettledResult`, `HttpResponse`) instead of
  performing them.
- `Date` parsing (`new Date(s).getTime()`) is abstracted by an arbitrary
  function `getTime : String → Int`; the feed-ordering theorems hold for
  every such function.
- Dynamic JSON payloads are modelled as records of `Option`al fields;
  `??`/`?.` in the source become `Option.getD`/`Option.bind`.  A JS
  template interpolation of a possibly-`undefined` value is modelled by
  `jsShow` (rendering `undefined` for a missing value, as JS does).
  The only field access in `eventToFeedItems` that can throw on data the
  upstream can actually send is `commit.message.split("\n")` when a
  commit carries no `message`; accordingly `message` is the one field
  whose absence makes the item construction fail (`Option`-valued
  builder), mirroring the `try/catch` in the source.
-/

/-! ## Association-list model of a JS `Map` -/

/-- Lookup in an insertion-ordered association list (JS `Map.get`). -/
def mapGet {α : Type} (m : List (String × α)) (k : String) : Option α :=
  match m with
  | [] => none
  | (k', v) :: rest => if k' = k then some v else mapGet rest k

/-- Key-membership test (JS `Map.has`). -/
def mapHas {α : Type} (m : List (String × α)) (k : String) : Bool :=
  (mapGet m k).isSome

/-- Insertion (JS `Map.set`): replaces in place when the key exists,
appends otherwise. -/
def mapSet {α : Type} (m : List (String × α)) (k : String) (v : α) :
    List (String × α) :=
  match m with
  | [] => [(k, v)]
  | (k', v') :: rest =>
      if k' = k then (k', v) :: rest else (k', v') :: mapSet rest k v

theorem mapGet_mapSet_self {α : Type} (m : List (String × α)) (k : String) (v : α) :
    mapGet (mapSet m k v) k = some v := by
  induction m with
  | nil => simp [mapSet, mapGet]
  | cons hd tl ih =>
      by_cases h : hd.1 = k
      · simp [mapSet, mapGet, h]
      · simp [mapSet, mapGet, h, ih]

/-- Replacing an existing key's value rewrites exactly one position of the
values sequence of the map. -/
theorem mapSet_values_split {α : Type} (m : List (String × α)) (k : String)
    (w v : α) (h : mapGet m k = some w) :
    ∃ p q, m.map (fun e => e.2) = p ++ w :: q ∧
      (mapSet m k v).map (fun e => e.2) = p ++ v :: q := by
  induction m with
  | nil => simp [mapGet] at h
  | cons hd tl ih =>
      by_cases hk : hd.1 = k
      · refine ⟨[], tl.map (fun e => e.2), ?_, ?_⟩
        · simp [mapGet, hk] at h
          simp [h]
        · simp [mapSet, hk]
      · simp only [mapGet, hk, if_false] at h
        obtain ⟨p, q, h1, h2⟩ := ih h
        exact ⟨hd.2 :: p, q, by simp [h1], by simp [mapSet, hk, h2]⟩

/-! ## String helpers mirroring the JS string operations of the source -/

/-- Removal of the first occurrence of `pat` from a character list. -/
def removeFirstAux (pat : List Char) : List Char → List Char
  | [] => []
  | c :: rest =>
      if pat.isPrefixOf (c :: rest) then (c :: rest).drop pat.length
      else c :: removeFirstAux pat rest

/-- JS `s.replace(pat, "")` on string literals: removes the *first*
occurrence of `pat` anywhere in `s` (not only a leading prefix). -/
def jsReplaceFirst (s pat : String) : String :=
  ⟨removeFirstAux pat.data s.data⟩

/-- JS `s.split("\n")[0]`: the part of `s` before the first newline. -/
def firstLine (s : String) : String :=
  ⟨s.data.takeWhile (fun c => c ≠ '\n')⟩

/-- JS template interpolation of a possibly-`undefined` string. -/
def jsShow (o : Option String) : String := o.getD "undefined"

/-- JS template interpolation of a possibly-`undefined` number. -/
def jsShowNat (o : Option Nat) : String := (o.map toString).getD "undefined"

/-! ## Data model (`src/types.ts`) -/

/-- One configured repository (type `ConfigRepo`). -/
structure ConfigRepo where
  id : String
  name : String
deriving DecidableEq, Repr

/-- The configuration fields consumed by the modelled core (type
`AppConfig`; the remaining fields configure the excluded HTTP layer and
code-audit collaborator and are not read by the client/scheduler/feed
logic modelled here). -/
structure AppConfig where
  repos : List ConfigRepo
  feedLimit : Nat
deriving DecidableEq, Repr

/-- Rate-limit budget (type `RateLimitInfo`). -/
structure RateLimitInfo where
  limit : Nat
  remaining : Nat
  reset : Nat
deriving DecidableEq, Repr

/-- Commit-level diff summary (type `CommitStats`). -/
structure CommitStats where
  sha : String
  additions : Nat
  deletions : Nat
  filesChanged : Nat
deriving DecidableEq, Repr

/-- Cached repository metadata (type `RepoInfo`). -/
structure RepoInfo where
  repo : String
  displayName : String
  html_url : String
  description : Option String
  stargazers_count : Nat
  forks_count : Nat
  open_issues_count : Nat
  pushed_at : String
  default_branch : String
deriving DecidableEq, Repr

/-- The object `GitHubClient.getRepoInfo` resolves with: a `RepoInfo`
without the `displayName` that the scheduler attaches on storing it. -/
structure ClientRepoInfo where
  repo : String
  html_url : String
  description : Option String
  stargazers_count : Nat
  forks_count : Nat
  open_issues_count : Nat
  pushed_at : String
  default_branch : String
deriving DecidableEq, Repr

/-- Code-audit report record (type `QualityReport`); carried by the store
but never touched by the modelled core. -/
structure QualityReport where
  repo : String
  displayName : String
  score : Option Int
  markdown : String
  updatedAt : String
  localPath : String
deriving DecidableEq, Repr

/-- One feed entry (type `FeedItem`). -/
structure FeedItem where
  type : String
  icon : String
  when : String
  repo : String
  actor : Option String
  title : String
  url : String
  extra : Option String
  sha : Option String
  stats : Option CommitStats
  displayName : Option String
deriving DecidableEq, Repr

/-! ### Raw GitHub events

The upstream event JSON is open-ended; the records below carry exactly the
fields the source reads, each optional field modelling a field that may be
absent from the payload. -/

/-- The `actor` object of a raw event. -/
structure ActorObj where
  display_login : Option String
  login : Option String
deriving DecidableEq, Repr

/-- One entry of `payload.commits` of a push event. -/
structure CommitObj where
  sha : String
  message : Option String
  authorName : Option String
deriving DecidableEq, Repr

/-- The `payload.pull_request` object. -/
structure PullRequestObj where
  number : Option Nat
  title : Option String
  html_url : Option String
  merged : Option Bool
deriving DecidableEq, Repr

def PullRequestObj.empty : PullRequestObj :=
  { number := none, title := none, html_url := none, merged := none }

/-- The `payload.issue` object. -/
structure IssueObj where
  number : Option Nat
  title : Option String
  html_url : Option String
deriving DecidableEq, Repr

def IssueObj.empty : IssueObj :=
  { number := none, title := none, html_url := none }

/-- The `payload.comment` object. -/
structure CommentObj where
  html_url : Option String
deriving DecidableEq, Repr

/-- The `payload.release` object. -/
structure ReleaseObj where
  tag_name : Option String
  html_url : Option String
deriving DecidableEq, Repr

def ReleaseObj.empty : ReleaseObj :=
  { tag_name := none, html_url := none }

/-- The `payload.forkee` object. -/
structure ForkeeObj where
  html_url : Option String
deriving DecidableEq, Repr

/-- The `payload` of a raw event (fields the source reads). -/
structure EventPayload where
  commits : Option (List CommitObj)
  ref : Option String
  ref_type : Option String
  action : Option String
  pull_request : Option PullRequestObj
  issue : Option IssueObj
  comment : Option CommentObj
  release : Option ReleaseObj
  forkee : Option ForkeeObj
deriving DecidableEq, Repr

def EventPayload.empty : EventPayload :=
  { commits := none, ref := none, ref_type := none, action := none,
    pull_request := none, issue := none, comment := none, release := none,
    forkee := none }

/-- One raw activity event as handed to the feed builder: the upstream
JSON plus the `__repo` tag `getRepoEvents` attaches (field `repoTag`). -/
structure RawEvent where
  type : Option String
  repoTag : String
  actor : Option ActorObj
  created_at : String
  payload : Option EventPayload
deriving DecidableEq, Repr

/-- The process-wide mutable cache (interface `DataStore`,
`src/store/memory.ts`). -/
structure DataStore where
  repoInfos : List (String × RepoInfo)
  repoEvents : List (String × List RawEvent)
  feedItems : List FeedItem
  commitStats : List (String × CommitStats)
  qualityReports : List (String × QualityReport)
deriving DecidableEq, Repr

/-! ## Feed builder (`src/services/feed.ts`) -/

/-- The `ICONS` record: `ICONS[t] ?? ICONS.default`. -/
def iconFor (t : String) : String :=
  if t = "PushEvent" then "⬆️"
  else if t = "PullRequestEvent" then "🔀"
  else if t = "IssuesEvent" then "❗"
  else if t = "IssueCommentEvent" then "💬"
  else if t = "CreateEvent" then "🌱"
  else if t = "DeleteEvent" then "🗑️"
  else if t = "ReleaseEvent" then "🏷️"
  else if t = "ForkEvent" then "🍴"
  else if t = "WatchEvent" then "⭐"
  else if t = "CommitCommentEvent" then "📝"
  else if t = "MemberEvent" then "👥"
  else if t = "public" then "📣"
  else if t = "default" then "📌"
  else if t = "Commit" then "📝"
  else "📌"

/-- All-or-nothing traversal: JS `Array.prototype.map` whose callback may
throw aborts the whole mapping at the first failing element. -/
def optTraverse {α β : Type} (f : α → Option β) : List α → Option (List β)
  | [] => some []
  | a :: rest =>
      match f a, optTraverse f rest with
      | some b, some bs => some (b :: bs)
      | _, _ => none

/-- Builder of one push-expansion item (the arrow function inside
`p.commits.map(...)`); fails exactly when the commit carries no `message`
(`commit.message.split` throws on `undefined`). -/
def pushCommitItem (ev : RawEvent) (actor : Option String)
    (urlBase branch : String) (c : CommitObj) : Option FeedItem :=
  c.message.map fun msg =>
    { type := "Commit"
      icon := "📝"
      when := ev.created_at
      repo := ev.repoTag
      actor := actor
      title := "Commit to " ++ branch ++ ": " ++ firstLine msg
      url := urlBase ++ "/commit/" ++ c.sha
      extra := some ("by " ++ c.authorName.getD (actor.getD ""))
      sha := some c.sha
      stats := none
      displayName := none }

/-- The non-push arm of `eventToFeedItems`: the `title`/`url`/`extra`
computation of the if/else chain followed by the single-item return. -/
def genericFeedItem (ev : RawEvent) (ty : String) (actor : Option String)
    (urlBase : String) (p : EventPayload) : FeedItem :=
  let tue : String × String × String :=
    if ty = "PullRequestEvent" then
      let pr := p.pull_request.getD PullRequestObj.empty
      ("PR " ++ jsShow p.action ++ " #" ++ jsShowNat pr.number ++ ": " ++
         pr.title.getD "",
       pr.html_url.getD urlBase,
       if p.action = some "closed" ∧ pr.merged = some true then "已合并" else "")
    else if ty = "IssuesEvent" then
      let is := p.issue.getD IssueObj.empty
      ("Issue " ++ jsShow p.action ++ " #" ++ jsShowNat is.number ++ ": " ++
         is.title.getD "",
       is.html_url.getD urlBase, "")
    else if ty = "IssueCommentEvent" then
      let is := p.issue.getD IssueObj.empty
      ("Issue 评论 #" ++ jsShowNat is.number ++ ": " ++ is.title.getD "",
       ((p.comment.bind (fun c => c.html_url)).orElse
          (fun _ => is.html_url)).getD urlBase, "")
    else if ty = "ReleaseEvent" then
      let rel := p.release.getD ReleaseObj.empty
      ("发布 " ++ jsShow p.action ++ ": " ++ rel.tag_name.getD "",
       rel.html_url.getD urlBase, "")
    else if ty = "CreateEvent" then
      ("创建 " ++ jsShow p.ref_type ++ ": " ++ jsShow p.ref, urlBase, "")
    else if ty = "DeleteEvent" then
      ("删除 " ++ jsShow p.ref_type ++ ": " ++ jsShow p.ref, urlBase, "")
    else if ty = "ForkEvent" then
      ("Fork 了仓库", (p.forkee.bind (fun f => f.html_url)).getD urlBase, "")
    else if ty = "WatchEvent" then
      ("Star 了仓库", urlBase, "")
    else (ty, urlBase, "")
  { type := ty
    icon := iconFor ty
    when := ev.created_at
    repo := ev.repoTag
    actor := actor
    title := tue.1
    url := tue.2.1
    extra := some tue.2.2
    sha := none
    stats := none
    displayName := none }

/-- Actor of an event: `ev.actor?.display_login ?? ev.actor?.login`. -/
def actorOf (ev : RawEvent) : Option String :=
  match ev.actor.bind (fun a => a.display_login) with
  | some a => some a
  | none => ev.actor.bind (fun a => a.login)

/-- The body of the `try` block of `eventToFeedItems`; `none` models the
body throwing (a malformed payload). -/
def eventToFeedItemsCore (ev : RawEvent) : Option (List FeedItem) :=
  let ty := ev.type.getD "default"
  let actor := actorOf ev
  let urlBase := "https://github.com/" ++ ev.repoTag
  let p := ev.payload.getD EventPayload.empty
  match p.commits with
  | some cs =>
      if ty = "PushEvent" then
        let branch := jsReplaceFirst (p.ref.getD "") "refs/heads/"
        optTraverse (pushCommitItem ev actor urlBase branch) cs
      else some [genericFeedItem ev ty actor urlBase p]
  | none => some [genericFeedItem ev ty actor urlBase p]

/-- Function `eventToFeedItems`: the `catch` arm turns a throwing event
into zero items. -/
def eventToFeedItems (ev : RawEvent) : List FeedItem :=
  (eventToFeedItemsCore ev).getD []

/-- Comparator `byDescTime` (`new Date(b.when).getTime() -
new Date(a.when).getTime()`), with `Date` parsing abstracted by
`getTime`. -/
def byDescTime (getTime : String → Int) (a b : FeedItem) : Int :=
  getTime b.when - getTime a.when

/-- The total order induced by the comparator (`byDescTime a b ≤ 0`,
i.e. most recent first); a stable sort under this order is the result of
`Array.prototype.sort(byDescTime)`. -/
def byDescTimeLe (getTime : String → Int) (a b : FeedItem) : Bool :=
  byDescTime getTime a b ≤ 0

/-- The closure `withStats` inside `rebuildGlobalFeed`, over the store's
`commitStats` map (`item.sha` is truthy exactly when it is a present,
non-empty string). -/
def withStats (commitStats : List (String × CommitStats)) (item : FeedItem) :
    FeedItem :=
  match item.sha with
  | some sha =>
      if item.type = "Commit" ∧ sha ≠ "" then
        match mapGet commitStats (item.repo ++ "@" ++ sha) with
        | some cached => { item with stats := some cached }
        | none => item
      else item
  | none => item

/-- The `nameMap` built by the `for (const r of cfg.repos)` loop. -/
def buildNameMap (repos : List ConfigRepo) : List (String × String) :=
  repos.foldl (fun m r => mapSet m r.id r.name) []

/-- Display-name assignment `nameMap.get(it.repo) || it.repo` (`||`
falls back on the empty string as well as on a missing entry). -/
def displayNameFor (nameMap : List (String × String)) (repoId : String) :
    String :=
  match mapGet nameMap repoId with
  | some n => if n = "" then repoId else n
  | none => repoId

/-- The candidate items of a feed rebuild before sorting and truncation:
`Array.from(store.repoEvents.values()).flat().flatMap(eventToFeedItems)
.map(it => ({ ...withStats(it), displayName: ... }))`. -/
def feedCandidatesRaw (cfg : AppConfig) (store : DataStore) : List FeedItem :=
  let allEvents := (store.repoEvents.map (fun e => e.2)).flatten
  let nameMap := buildNameMap cfg.repos
  (allEvents.flatMap eventToFeedItems).map
    (fun it =>
      { withStats store.commitStats it with
          displayName := some (displayNameFor nameMap it.repo) })

/-- Function `rebuildGlobalFeed`: sort the candidates most-recent-first
and truncate to `cfg.feedLimit`; the result is assigned to
`store.feedItems` in a single store write. -/
def rebuildGlobalFeed (getTime : String → Int) (cfg : AppConfig)
    (store : DataStore) : DataStore :=
  { store with
      feedItems :=
        ((feedCandidatesRaw cfg store).mergeSort (byDescTimeLe getTime)).take
          cfg.feedLimit }

/-! ## Conditional API client (`src/github/client.ts`) -/

/-- Which of the three validation-token maps of the `ETagCache` a fetch
addresses. -/
inductive ETagSlot where
  | info
  | events
  | commits
deriving DecidableEq, Repr

/-- The per-resource validation-token cache (type `ETagCache`). -/
structure ETagCache where
  info : List (String × String)
  events : List (String × String)
  commits : List (String × String)
deriving DecidableEq, Repr

def ETagCache.getMap (c : ETagCache) : ETagSlot → List (String × String)
  | .info => c.info
  | .events => c.events
  | .commits => c.commits

def ETagCache.setMap (c : ETagCache) (s : ETagSlot)
    (m : List (String × String)) : ETagCache :=
  match s with
  | .info => { c with info := m }
  | .events => { c with events := m }
  | .commits => { c with commits := m }

/-- The mutable state of a `GitHubClient`: the token cache and the rate
budget. -/
structure ClientState where
  etags : ETagCache
  rate : RateLimitInfo
deriving DecidableEq, Repr

/-- The field initializers of `GitHubClient`. -/
def ClientState.initial : ClientState :=
  { etags := { info := [], events := [], commits := [] },
    rate := { limit := 5000, remaining := 5000, reset := 0 } }

/-- The upstream HTTP response a call to `fetch` resolves with: status
line, the headers the client reads, the body as text and as parsed JSON
of the expected type. -/
structure HttpResponse (T : Type) where
  status : Nat
  statusText : String
  etag : Option String
  xRateLimitLimit : Option Nat
  xRateLimitRemaining : Option Nat
  xRateLimitReset : Option Nat
  bodyText : String
  bodyJson : T

/-- JS `Response.ok`: a 2xx status. -/
def HttpResponse.ok {T : Type} (r : HttpResponse T) : Bool :=
  decide (200 ≤ r.status) && decide (r.status ≤ 299)

/-- Method `updateRateLimit`: the budget is overwritten from the
`x-ratelimit-*` headers on every response (`parseInt(h || "0")`: a
missing header reads as 0). -/
def updateRateLimit {T : Type} (r : HttpResponse T) : RateLimitInfo :=
  { limit := r.xRateLimitLimit.getD 0,
    remaining := r.xRateLimitRemaining.getD 0,
    reset := r.xRateLimitReset.getD 0 }

/-- The two non-throwing outcomes of `fetchJsonWithEtag`: the
`{status: 304}` sentinel and `{status: 200, data}`. -/
inductive FetchOutcome (T : Type) where
  | unchanged
  | data (value : T)
deriving DecidableEq, Repr

/-- Method `fetchJsonWithEtag` as a function of the response the
underlying `fetch` resolves with.  `Except.error` models the `throw` on a
non-ok, non-304 status. -/
def fetchJsonWithEtag {T : Type} (url : String)
    (etagKey : Option (ETagSlot × String)) (resp : HttpResponse T)
    (st : ClientState) : Except String (FetchOutcome T) × ClientState :=
  let st1 : ClientState := { st with rate := updateRateLimit resp }
  if resp.status = 304 then (.ok .unchanged, st1)
  else if resp.ok = false then
    (.error (toString resp.status ++ " " ++ resp.statusText ++ " for " ++
       url ++ " :: " ++ resp.bodyText), st1)
  else
    match resp.etag, etagKey with
    | some tag, some (slot, key) =>
        (.ok (.data resp.bodyJson),
         { st1 with
             etags := st1.etags.setMap slot
               (mapSet (st1.etags.getMap slot) key tag) })
    | _, _ => (.ok (.data resp.bodyJson), st1)

/-- The repository-metadata resource as the upstream serves it.  The
client's declared response type lists only the fields it reads (and omits
`pushed_at`), but the resource itself carries both `pushed_at` (time of
the last push) and `updated_at` (time of the last repository update). -/
structure RepoApiResponse where
  html_url : String
  description : Option String
  stargazers_count : Nat
  forks_count : Nat
  open_issues_count : Nat
  pushed_at : String
  updated_at : String
  default_branch : String
deriving DecidableEq, Repr

/-- Method `getRepoInfo`: maps a successful metadata fetch onto the
stored shape (note the source assigns `info.updated_at` to the output's
`pushed_at` field) and signals `none` on an `Unchanged` fetch. -/
def getRepoInfo (repoId : String) (resp : HttpResponse RepoApiResponse)
    (st : ClientState) : Except String (Option ClientRepoInfo) × ClientState :=
  let out := fetchJsonWithEtag ("https://api.github.com/repos/" ++ repoId)
    (some (.info, repoId)) resp st
  (match out.1 with
   | .error e => .error e
   | .ok .unchanged => .ok none
   | .ok (.data info) =>
       .ok (some
         { repo := repoId
           html_url := info.html_url
           description := info.description
           stargazers_count := info.stargazers_count
           forks_count := info.forks_count
           open_issues_count := info.open_issues_count
           pushed_at := info.updated_at
           default_branch := info.default_branch }),
   out.2)

/-! ## Update scheduler (`src/services/scheduler.ts`) -/

/-- The state of one entry of a `Promise.allSettled` result. -/
inductive SettledResult (α : Type) where
  | fulfilled (value : α)
  | rejected
deriving DecidableEq, Repr

/-- The commit-SHA collection loop of `updateRepo`: all commit SHAs
referenced by push-type events of the fetched batch, in batch order. -/
def collectPushCommitShas (events : List RawEvent) : List String :=
  events.flatMap fun ev =>
    if ev.type = some "PushEvent" then
      match ev.payload.bind (fun p => p.commits) with
      | some cs => cs.map (fun c => c.sha)
      | none => []
    else []

/-- Step 2 of `updateRepo`: on metadata success with a non-null value,
overwrite the cached `RepoInfo`, attaching the configured display name;
otherwise keep the store. -/
def applyInfoResult (repo : ConfigRepo)
    (infoRes : SettledResult (Option ClientRepoInfo)) (store : DataStore) :
    DataStore :=
  match infoRes with
  | .fulfilled (some info) =>
      { store with
          repoInfos := mapSet store.repoInfos repo.id
            { repo := info.repo
              displayName := repo.name
              html_url := info.html_url
              description := info.description
              stargazers_count := info.stargazers_count
              forks_count := info.forks_count
              open_issues_count := info.open_issues_count
              pushed_at := info.pushed_at
              default_branch := info.default_branch } }
  | _ => store

/-- The `stats.forEach` loop of `updateRepo`: each fulfilled, non-null
commit-stat result is written into the commit-stat cache under
`repoId@sha`. -/
def applyStatResults (repoId : String)
    (statRes : String → SettledResult (Option CommitStats)) :
    List String → DataStore → DataStore
  | [], st => st
  | sha :: rest, st =>
      applyStatResults repoId statRes rest
        (match statRes sha with
         | .fulfilled (some v) =>
             { st with
                 commitStats :=
                   mapSet st.commitStats (repoId ++ "@" ++ v.sha) v }
         | _ => st)

/-- Step 3's batch write of `updateRepo`: `if (events.length > 0 ||
!this.store.repoEvents.has(repo.id)) this.store.repoEvents.set(...)`. -/
def eventsWriteStep (repoId : String) (events : List RawEvent)
    (st : DataStore) : DataStore :=
  if 0 < events.length ∨ mapHas st.repoEvents repoId = false then
    { st with repoEvents := mapSet st.repoEvents repoId events }
  else st

/-- The `toFetch` selection of `updateRepo`: the collected push-event
commit SHAs, minus those already present in the commit-stat cache,
truncated to the first 5 (`.filter(...).slice(0, 5)`). -/
def shAsToFetch (repoId : String) (events : List RawEvent)
    (st : DataStore) : List String :=
  ((collectPushCommitShas events).filter
    (fun sha => ! mapHas st.commitStats (repoId ++ "@" ++ sha))).take 5

/-- Method `updateRepo` as a function of the settled results of the
network calls it issues (`infoRes`, `eventsRes` from the first
`Promise.allSettled`; `statRes` maps each SHA whose statistics are
fetched to that fetch's settled result).  Returns the updated store
together with the list of SHAs for which commit-stat fetches were
issued. -/
def updateRepo (repo : ConfigRepo)
    (infoRes : SettledResult (Option ClientRepoInfo))
    (eventsRes : SettledResult (List RawEvent))
    (statRes : String → SettledResult (Option CommitStats))
    (store : DataStore) : DataStore × List String :=
  let store1 := applyInfoResult repo infoRes store
  match eventsRes with
  | .fulfilled events =>
      let store2 := eventsWriteStep repo.id events store1
      let toFetch := shAsToFetch repo.id events store2
      (applyStatResults repo.id statRes toFetch store2, toFetch)
  | .rejected => (store1, [])

/-! ## Frame lemmas for the scheduler steps -/

theorem applyInfoResult_repoEvents (repo : ConfigRepo)
    (infoRes : SettledResult (Option ClientRepoInfo)) (store : DataStore) :
    (applyInfoResult repo infoRes store).repoEvents = store.repoEvents := by
  cases infoRes with
  | fulfilled v => cases v <;> rfl
  | rejected => rfl

theorem applyInfoResult_commitStats (repo : ConfigRepo)
    (infoRes : SettledResult (Option ClientRepoInfo)) (store : DataStore) :
    (applyInfoResult repo infoRes store).commitStats = store.commitStats := by
  cases infoRes with
  | fulfilled v => cases v <;> rfl
  | rejected => rfl

theorem applyStatResults_repoEvents (repoId : String)
    (statRes : String → SettledResult (Option CommitStats))
    (l : List String) (st : DataStore) :
    (applyStatResults repoId statRes l st).repoEvents = st.repoEvents := by
  induction l generalizing st with
  | nil => rfl
  | cons sha rest ih =>
      simp only [applyStatResults]
      rw [ih]
      cases statRes sha with
      | fulfilled v => cases v <;> rfl
      | rejected => rfl

theorem eventsWriteStep_commitStats (repoId : String) (events : List RawEvent)
    (st : DataStore) :
    (eventsWriteStep repoId events st).commitStats = st.commitStats := by
  unfold eventsWriteStep
  split <;> rfl

/-! ## Claim theorems -/

/-- C10: a feed rebuild mutates only the store's `feedItems` field — the
`repoInfos`, `repoEvents`, `commitStats` and `qualityReports` maps are
exactly as they were before the call — and the new feed (the sorted,
truncated candidate collection) replaces the old one in the single
`feedItems` assignment. -/
theorem rebuildGlobalFeed_frame (getTime : String → Int) (cfg : AppConfig)
    (store : DataStore) :
    (rebuildGlobalFeed getTime cfg store).repoInfos = store.repoInfos
    ∧ (rebuildGlobalFeed getTime cfg store).repoEvents = store.repoEvents
    ∧ (rebuildGlobalFeed getTime cfg store).commitStats = store.commitStats
    ∧ (rebuildGlobalFeed getTime cfg store).qualityReports
        = store.qualityReports
    ∧ (rebuildGlobalFeed getTime cfg store).feedItems
        = ((feedCandidatesRaw cfg store).mergeSort (byDescTimeLe getTime)).take
            cfg.feedLimit :=
  ⟨rfl, rfl, rfl, rfl, rfl⟩

/-- C7: for a `Commit`-typed item carrying a (non-empty) SHA, the
enrichment step attaches the `CommitStat` cached under `repo@sha` when
present, changing no other field; with no cached stat the item is
returned unchanged; and after the stat becomes cached (as by a later
tick), the same enrichment attaches it — so a later rebuild shows the
correct statistics. -/
theorem withStats_enrichment (commitStats : List (String × CommitStats))
    (item : FeedItem) (sha : String) (hsha : item.sha = some sha)
    (hne : sha ≠ "") (hty : item.type = "Commit") :
    (∀ v, mapGet commitStats (item.repo ++ "@" ++ sha) = some v →
        withStats commitStats item = { item with stats := some v })
    ∧ (mapGet commitStats (item.repo ++ "@" ++ sha) = none →
        withStats commitStats item = item)
    ∧ ∀ v, withStats (mapSet commitStats (item.repo ++ "@" ++ sha) v) item
        = { item with stats := some v } := by
  refine ⟨?_, ?_, ?_⟩
  · intro v hv
    simp [withStats, hsha, hty, hne, hv]
  · intro hv
    simp [withStats, hsha, hty, hne, hv]
  · intro v
    simp [withStats, hsha, hty, hne, mapGet_mapSet_self]

/-- Concrete feed item for the closed instance of C7. -/
def c7Item : FeedItem :=
  { type := "Commit", icon := "📝", when := "t", repo := "o/r",
    actor := none, title := "T", url := "u", extra := none,
    sha := some "abc", stats := none, displayName := none }

/-- Concrete commit statistics for the closed instance of C7. -/
def c7Stat : CommitStats :=
  { sha := "abc", additions := 10, deletions := 2, filesChanged := 3 }

/-- Closed instance of C7 at a concrete item and cache. -/
theorem withStats_enrichment_witness :
    (c7Item.sha = some "abc" ∧ "abc" ≠ "" ∧ c7Item.type = "Commit")
    ∧ withStats (mapSet [] ("o/r" ++ "@" ++ "abc") c7Stat) c7Item
        = { c7Item with stats := some c7Stat } :=
  ⟨⟨rfl, by decide, rfl⟩,
   (withStats_enrichment [] c7Item "abc" rfl (by decide) rfl).2.2 c7Stat⟩

/-- C6: a fetch answered with 304 returns the `Unchanged` sentinel and
leaves the whole validation-token cache (in particular the entry for the
requested key) exactly as before the call; conversely the token cache
changes only on a successful (2xx, non-304) response carrying a new
token, which is stored under the requested key — so a second fetch with
no upstream change yields `Unchanged` with the token entry unchanged. -/
theorem fetchJsonWithEtag_conditional {T : Type} (url : String)
    (etagKey : Option (ETagSlot × String)) (resp : HttpResponse T)
    (st : ClientState) :
    (resp.status = 304 →
      (fetchJsonWithEtag url etagKey resp st).1 = .ok .unchanged
      ∧ (fetchJsonWithEtag url etagKey resp st).2.etags = st.etags)
    ∧ ((fetchJsonWithEtag url etagKey resp st).2.etags ≠ st.etags →
      resp.ok = true ∧ resp.status ≠ 304
      ∧ ∃ slot key tag, etagKey = some (slot, key) ∧ resp.etag = some tag
        ∧ (fetchJsonWithEtag url etagKey resp st).2.etags
            = st.etags.setMap slot (mapSet (st.etags.getMap slot) key tag)) := by
  constructor
  · intro h304
    constructor
    · simp [fetchJsonWithEtag, h304]
    · simp [fetchJsonWithEtag, h304]
  · intro hch
    by_cases h304 : resp.status = 304
    · exact absurd (by simp [fetchJsonWithEtag, h304]) hch
    by_cases hok : resp.ok = false
    · exact absurd (by simp [fetchJsonWithEtag, h304, hok]) hch
    refine ⟨by simpa using hok, h304, ?_⟩
    cases hetag : resp.etag with
    | none => exact absurd (by simp [fetchJsonWithEtag, h304, hok, hetag]) hch
    | some tag =>
        cases hkey : etagKey with
        | none =>
            exact absurd (by simp [fetchJsonWithEtag, h304, hok, hetag, hkey]) hch
        | some sk =>
            exact ⟨sk.1, sk.2, tag, by simp [hkey], rfl,
              by simp [fetchJsonWithEtag, h304, hok, hetag, hkey]⟩

/-- Concrete 304 response for the closed instance of C6. -/
def c6Response : HttpResponse Nat :=
  { status := 304, statusText := "Not Modified", etag := none,
    xRateLimitLimit := some 5000, xRateLimitRemaining := some 4998,
    xRateLimitReset := some 1700000000, bodyText := "", bodyJson := 0 }

/-- Concrete client state for the closed instance of C6: the events-slot
token for key `o/r` is already cached, as after a prior 200 response. -/
def c6State : ClientState :=
  { etags := { info := [], events := [("o/r", "W/xyz")], commits := [] },
    rate := { limit := 5000, remaining := 4999, reset := 1700000000 } }

/-- Closed instance of C6 at a concrete 304 response. -/
theorem fetchJsonWithEtag_conditional_witness :
    c6Response.status = 304
    ∧ (fetchJsonWithEtag "https://api.github.com/networks/o/r/events?per_page=30"
        (some (.events, "o/r")) c6Response c6State).1 = .ok .unchanged
    ∧ (fetchJsonWithEtag "https://api.github.com/networks/o/r/events?per_page=30"
        (some (.events, "o/r")) c6Response c6State).2.etags = c6State.etags :=
  ⟨rfl,
   (fetchJsonWithEtag_conditional
      "https://api.github.com/networks/o/r/events?per_page=30"
      (some (.events, "o/r")) c6Response c6State).1 rfl |>.1,
   (fetchJsonWithEtag_conditional
      "https://api.github.com/networks/o/r/events?per_page=30"
      (some (.events, "o/r")) c6Response c6State).1 rfl |>.2⟩

/-- C1: when the events fetch of a per-repository update fulfills with an
empty batch and a batch is already cached for that repository, the whole
`repoEvents` map — in particular the cached `RawEventBatch` — is left
unchanged by `updateRepo`; and whenever the fetched batch is non-empty or
no batch has ever been cached for the repository, the cached batch is
overwritten with the fetched one. -/
theorem updateRepo_stale_preference (repo : ConfigRepo)
    (infoRes : SettledResult (Option ClientRepoInfo))
    (statRes : String → SettledResult (Option CommitStats))
    (store : DataStore) (events : List RawEvent) :
    ((events = [] ∧ mapHas store.repoEvents repo.id = true) →
      (updateRepo repo infoRes (.fulfilled events) statRes store).1.repoEvents
        = store.repoEvents)
    ∧ ((events ≠ [] ∨ mapHas store.repoEvents repo.id = false) →
      (updateRepo repo infoRes (.fulfilled events) statRes store).1.repoEvents
        = mapSet store.repoEvents repo.id events) := by
  have h1 := applyInfoResult_repoEvents repo infoRes store
  constructor
  · rintro ⟨rfl, hhas⟩
    simp only [updateRepo]
    rw [applyStatResults_repoEvents]
    unfold eventsWriteStep
    rw [if_neg]
    · exact h1
    · simp [h1, hhas]
  · intro h
    simp only [updateRepo]
    rw [applyStatResults_repoEvents]
    unfold eventsWriteStep
    rw [if_pos]
    · simp [h1]
    · rcases h with h | h
      · exact Or.inl (List.length_pos.mpr h)
      · exact Or.inr (by rw [h1]; exact h)

/-- Concrete cached event for the closed instance of C1. -/
def c1Event : RawEvent :=
  { type := some "WatchEvent", repoTag := "o/r", actor := none,
    created_at := "2024-01-02T03:04:05Z", payload := none }

/-- Concrete store with a cached batch for the closed instance of C1. -/
def c1Store : DataStore :=
  { repoInfos := [], repoEvents := [("o/r", [c1Event])], feedItems := [],
    commitStats := [], qualityReports := [] }

/-- Concrete configured repository for the closed instance of C1. -/
def c1Repo : ConfigRepo := { id := "o/r", name := "Repo" }

/-- Closed instance of C1: an `Unchanged` (empty) events fetch against a
repository with a cached batch leaves the event cache untouched. -/
theorem updateRepo_stale_preference_witness :
    (([] : List RawEvent) = [] ∧ mapHas c1Store.repoEvents c1Repo.id = true)
    ∧ (updateRepo c1Repo .rejected (.fulfilled []) (fun _ => .rejected)
        c1Store).1.repoEvents = c1Store.repoEvents :=
  ⟨⟨rfl, by decide⟩,
   (updateRepo_stale_preference c1Repo .rejected (fun _ => .rejected)
      c1Store []).1 ⟨rfl, by decide⟩⟩

/-- C3: in a per-repository update whose events fetch succeeded, the SHAs
for which commit-stat fetches are issued are exactly the first 5, in
batch order, of the push-event commit SHAs not already present in the
commit-stat cache; in particular at most 5 such fetches are issued and
none of them targets an already-cached SHA. -/
theorem updateRepo_bounded_fanout (repo : ConfigRepo)
    (infoRes : SettledResult (Option ClientRepoInfo))
    (statRes : String → SettledResult (Option CommitStats))
    (store : DataStore) (events : List RawEvent) :
    (updateRepo repo infoRes (.fulfilled events) statRes store).2
      = ((collectPushCommitShas events).filter
          (fun sha => ! mapHas store.commitStats (repo.id ++ "@" ++ sha))).take 5
    ∧ (updateRepo repo infoRes (.fulfilled events) statRes store).2.length ≤ 5
    ∧ ∀ sha ∈ (updateRepo repo infoRes (.fulfilled events) statRes store).2,
        mapHas store.commitStats (repo.id ++ "@" ++ sha) = false := by
  have hcs : (eventsWriteStep repo.id events
      (applyInfoResult repo infoRes store)).commitStats = store.commitStats := by
    rw [eventsWriteStep_commitStats, applyInfoResult_commitStats]
  have heq : (updateRepo repo infoRes (.fulfilled events) statRes store).2
      = ((collectPushCommitShas events).filter
          (fun sha => ! mapHas store.commitStats (repo.id ++ "@" ++ sha))).take 5 := by
    simp only [updateRepo, shAsToFetch, hcs]
  refine ⟨heq, ?_, ?_⟩
  · rw [heq]
    simp [List.length_take]
  · intro sha hmem
    rw [heq] at hmem
    have hmem' := List.mem_of_mem_take hmem
    have := (List.mem_filter.mp hmem').2
    simpa using this

/-- A push event carrying 7 commits for the closed instance of C3. -/
def c3Event : RawEvent :=
  { type := some "PushEvent", repoTag := "o/r", actor := none,
    created_at := "2024-01-02T03:04:05Z",
    payload := some { EventPayload.empty with
      ref := some "refs/heads/main",
      commits := some
        [{ sha := "s1", message := some "m1", authorName := none },
         { sha := "s2", message := some "m2", authorName := none },
         { sha := "s3", message := some "m3", authorName := none },
         { sha := "s4", message := some "m4", authorName := none },
         { sha := "s5", message := some "m5", authorName := none },
         { sha := "s6", message := some "m6", authorName := none },
         { sha := "s7", message := some "m7", authorName := none }] } }

/-- Concrete store for the closed instance of C3: the stat of `s2` is
already cached. -/
def c3Store : DataStore :=
  { repoInfos := [], repoEvents := [], feedItems := [],
    commitStats :=
      [("o/r@s2", { sha := "s2", additions := 1, deletions := 1,
                    filesChanged := 1 })],
    qualityReports := [] }

/-- Closed instance of C3: of the 7 push-event SHAs, the uncached ones
are taken in order and truncated to 5. -/
theorem updateRepo_bounded_fanout_witness :
    (updateRepo c1Repo .rejected (.fulfilled [c3Event]) (fun _ => .rejected)
        c3Store).2 = ["s1", "s3", "s4", "s5", "s6"]
    ∧ (updateRepo c1Repo .rejected (.fulfilled [c3Event]) (fun _ => .rejected)
        c3Store).2.length ≤ 5 :=
  ⟨by
    rw [(updateRepo_bounded_fanout c1Repo .rejected (fun _ => .rejected)
      c3Store [c3Event]).1]
    decide,
   (updateRepo_bounded_fanout c1Repo .rejected (fun _ => .rejected)
      c3Store [c3Event]).2.1⟩

/-- C2: after a rebuild the feed length is at most the configured limit
and the feed is sorted by timestamp, most recent first; and when the
candidate item count exceeds the limit, the feed has exactly `limit`
items and they are, as a sub-multiset of the candidates, all at least as
recent as every dropped candidate — i.e. the `limit` most recent by
timestamp. -/
theorem rebuildGlobalFeed_feed_bound (getTime : String → Int) (cfg : AppConfig)
    (store : DataStore) :
    (rebuildGlobalFeed getTime cfg store).feedItems.length ≤ cfg.feedLimit
    ∧ List.Pairwise (fun a b => getTime b.when ≤ getTime a.when)
        (rebuildGlobalFeed getTime cfg store).feedItems
    ∧ (cfg.feedLimit < (feedCandidatesRaw cfg store).length →
        (rebuildGlobalFeed getTime cfg store).feedItems.length = cfg.feedLimit
        ∧ ∃ dropped : List FeedItem,
            ((rebuildGlobalFeed getTime cfg store).feedItems ++ dropped).Perm
              (feedCandidatesRaw cfg store)
            ∧ ∀ x ∈ (rebuildGlobalFeed getTime cfg store).feedItems,
                ∀ y ∈ dropped, getTime y.when ≤ getTime x.when) := by
  have htrans : ∀ (a b c : FeedItem), byDescTimeLe getTime a b = true →
      byDescTimeLe getTime b c = true → byDescTimeLe getTime a c = true := by
    intro a b c hab hbc
    simp only [byDescTimeLe, byDescTime, decide_eq_true_eq] at *
    omega
  have htotal : ∀ (a b : FeedItem),
      (byDescTimeLe getTime a b || byDescTimeLe getTime b a) = true := by
    intro a b
    simp only [byDescTimeLe, byDescTime, Bool.or_eq_true, decide_eq_true_eq]
    omega
  have hsorted := List.sorted_mergeSort htrans htotal
    (feedCandidatesRaw cfg store)
  have hsorted' : List.Pairwise (fun a b => getTime b.when ≤ getTime a.when)
      ((feedCandidatesRaw cfg store).mergeSort (byDescTimeLe getTime)) := by
    refine hsorted.imp ?_
    intro a b h
    simpa [byDescTimeLe, byDescTime] using h
  have hperm := List.mergeSort_perm (feedCandidatesRaw cfg store)
    (byDescTimeLe getTime)
  have hfeed : (rebuildGlobalFeed getTime cfg store).feedItems
      = ((feedCandidatesRaw cfg store).mergeSort (byDescTimeLe getTime)).take
          cfg.feedLimit := rfl
  refine ⟨?_, ?_, ?_⟩
  · rw [hfeed, List.length_take]
    omega
  · rw [hfeed]
    exact List.Pairwise.sublist (List.take_sublist _ _) hsorted'
  · intro hlen
    have hlensort : ((feedCandidatesRaw cfg store).mergeSort
        (byDescTimeLe getTime)).length = (feedCandidatesRaw cfg store).length :=
      List.length_mergeSort _
    constructor
    · rw [hfeed, List.length_take]
      omega
    · refine ⟨((feedCandidatesRaw cfg store).mergeSort
        (byDescTimeLe getTime)).drop cfg.feedLimit, ?_, ?_⟩
      · rw [hfeed, List.take_append_drop]
        exact hperm
      · rw [hfeed]
        have hsplit := List.take_append_drop cfg.feedLimit
          ((feedCandidatesRaw cfg store).mergeSort (byDescTimeLe getTime))
        rw [← hsplit] at hsorted'
        exact (List.pairwise_append.mp hsorted').2.2

/-- Two star events for the closed instance of C2. -/
def c2Events : List RawEvent :=
  [{ type := some "WatchEvent", repoTag := "o/r", actor := none,
     created_at := "2024-01-02T00:00:00Z", payload := none },
   { type := some "WatchEvent", repoTag := "o/r", actor := none,
     created_at := "2024-01-01T00:00:00Z", payload := none }]

/-- Concrete store holding two candidate events for the closed instance
of C2. -/
def c2Store : DataStore :=
  { repoInfos := [], repoEvents := [("o/r", c2Events)], feedItems := [],
    commitStats := [], qualityReports := [] }

/-- Concrete configuration with `feedLimit = 1` for the closed instance
of C2. -/
def c2Cfg : AppConfig := { repos := [{ id := "o/r", name := "Repo" }], feedLimit := 1 }

/-- Closed instance of C2: with 2 candidates and a limit of 1, the
rebuilt feed has exactly 1 item and the dropped candidate is no more
recent than it. -/
theorem rebuildGlobalFeed_feed_bound_witness :
    c2Cfg.feedLimit < (feedCandidatesRaw c2Cfg c2Store).length
    ∧ ((rebuildGlobalFeed (fun _ => 0) c2Cfg c2Store).feedItems.length
        = c2Cfg.feedLimit
      ∧ ∃ dropped : List FeedItem,
          ((rebuildGlobalFeed (fun _ => 0) c2Cfg c2Store).feedItems ++
            dropped).Perm (feedCandidatesRaw c2Cfg c2Store)
          ∧ ∀ x ∈ (rebuildGlobalFeed (fun _ => 0) c2Cfg c2Store).feedItems,
              ∀ y ∈ dropped, (fun _ => (0 : Int)) y.when ≤ (fun _ => (0 : Int)) x.when) :=
  ⟨by decide,
   (rebuildGlobalFeed_feed_bound (fun _ => 0) c2Cfg c2Store).2.2 (by decide)⟩

/-- Total push-expansion item builder: the value `pushCommitItem`
produces whenever the commit carries a `message`. -/
def pushCommitItemTotal (ev : RawEvent) (actor : Option String)
    (urlBase branch : String) (c : CommitObj) : FeedItem :=
  { type := "Commit"
    icon := "📝"
    when := ev.created_at
    repo := ev.repoTag
    actor := actor
    title := "Commit to " ++ branch ++ ": " ++ firstLine (c.message.getD "")
    url := urlBase ++ "/commit/" ++ c.sha
    extra := some ("by " ++ c.authorName.getD (actor.getD ""))
    sha := some c.sha
    stats := none
    displayName := none }

theorem pushCommitItem_eq_total (ev : RawEvent) (actor : Option String)
    (urlBase branch : String) (c : CommitObj) (h : c.message.isSome = true) :
    pushCommitItem ev actor urlBase branch c
      = some (pushCommitItemTotal ev actor urlBase branch c) := by
  cases hm : c.message with
  | some m => simp [pushCommitItem, pushCommitItemTotal, hm]
  | none => rw [hm] at h; simp at h

theorem optTraverse_push_total (ev : RawEvent) (actor : Option String)
    (urlBase branch : String) (cs : List CommitObj)
    (h : ∀ c ∈ cs, c.message.isSome = true) :
    optTraverse (pushCommitItem ev actor urlBase branch) cs
      = some (cs.map (pushCommitItemTotal ev actor urlBase branch)) := by
  induction cs with
  | nil => rfl
  | cons c rest ih =>
      simp only [optTraverse, pushCommitItem_eq_total ev actor urlBase branch c
        (h c (by simp)), ih (fun x hx => h x (by simp [hx])), List.map_cons]

theorem forall2_map_left {α β : Type} (g : α → β) (R : β → α → Prop)
    (l : List α) (h : ∀ a ∈ l, R (g a) a) : List.Forall₂ R (l.map g) l := by
  induction l with
  | nil => exact List.Forall₂.nil
  | cons a rest ih =>
      exact List.Forall₂.cons (h a (by simp))
        (ih (fun x hx => h x (by simp [hx])))

/-- Branch name as the specification words it: the ref with its
`refs/heads/` *prefix* removed (the ref is returned unchanged when it
does not start with `refs/heads/`).  Stated for comparison with the
source's first-occurrence `replace`. -/
def stripHeadsPrefixSpec (ref : String) : String :=
  if ("refs/heads/").data.isPrefixOf ref.data then
    ⟨ref.data.drop ("refs/heads/").data.length⟩
  else ref

/-- Concrete push event whose ref contains `refs/heads/` away from the
start, separating the source's `replace` from prefix removal. -/
def c5CexEvent : RawEvent :=
  { type := some "PushEvent", repoTag := "o/r", actor := none,
    created_at := "2024-01-02T03:04:05Z",
    payload := some { EventPayload.empty with
      ref := some "a-refs/heads/b",
      commits := some [{ sha := "s1", message := some "m",
                         authorName := none }] } }

/-- C5 counterexample: for the push event with ref `a-refs/heads/b`, the
source titles the commit item `Commit to a-b: m` (it removes the first
occurrence of `refs/heads/` anywhere in the ref), which differs from the
title the claim prescribes (branch = the ref with its `refs/heads/`
prefix removed, here the unchanged ref). -/
theorem eventToFeedItems_branch_cex :
    (eventToFeedItems c5CexEvent).map (fun it => it.title)
      = ["Commit to a-b: m"]
    ∧ "Commit to a-b: m"
        ≠ "Commit to " ++ stripHeadsPrefixSpec "a-refs/heads/b" ++ ": m" := by
  constructor
  · decide
  · decide

/-- C5 (amended): for every push event whose payload carries a list of
(well-formed, message-bearing) commits, `eventToFeedItems` returns
exactly one `Commit`-typed item per commit, tagged with that commit's
SHA, linked to that commit's URL, and titled with the branch name —
computed by removing the *first occurrence* of `refs/heads/` from the
ref (which coincides with prefix removal whenever the ref starts with
`refs/heads/`) — together with the first line of that commit's
message. -/
theorem eventToFeedItems_push_expansion (ev : RawEvent) (p : EventPayload)
    (cs : List CommitObj) (hty : ev.type = some "PushEvent")
    (hp : ev.payload = some p) (hcs : p.commits = some cs)
    (hmsg : ∀ c ∈ cs, c.message.isSome = true) :
    (eventToFeedItems ev).length = cs.length
    ∧ List.Forall₂ (fun it c =>
        it.type = "Commit" ∧ it.sha = some c.sha
        ∧ it.url = "https://github.com/" ++ ev.repoTag ++ "/commit/" ++ c.sha
        ∧ it.title = "Commit to " ++ jsReplaceFirst (p.ref.getD "") "refs/heads/"
            ++ ": " ++ firstLine (c.message.getD ""))
        (eventToFeedItems ev) cs := by
  have hev : eventToFeedItems ev
      = cs.map (pushCommitItemTotal ev (actorOf ev)
          ("https://github.com/" ++ ev.repoTag)
          (jsReplaceFirst (p.ref.getD "") "refs/heads/")) := by
    simp only [eventToFeedItems, eventToFeedItemsCore, hty, hp, hcs,
      Option.getD_some]
    rw [if_pos trivial, optTraverse_push_total _ _ _ _ _ hmsg,
      Option.getD_some]
  constructor
  · rw [hev, List.length_map]
  · rw [hev]
    refine forall2_map_left _ _ _ ?_
    intro c hc
    exact ⟨rfl, rfl, rfl, rfl⟩

/-- The payload of the concrete 3-commit push event of the C5 witness. -/
def c5Payload : EventPayload :=
  { EventPayload.empty with
    ref := some "refs/heads/main",
    commits := some
      [{ sha := "s1", message := some "one\nbody", authorName := none },
       { sha := "s2", message := some "two", authorName := some "Al" },
       { sha := "s3", message := some "three", authorName := none }] }

/-- A push event with 3 commits for the closed instance of C5. -/
def c5Event : RawEvent :=
  { type := some "PushEvent", repoTag := "o/r", actor := none,
    created_at := "2024-01-02T03:04:05Z", payload := some c5Payload }

/-- Closed instance of C5 (amended): the 3-commit push expands to
exactly 3 items, in correspondence with the commits. -/
theorem eventToFeedItems_push_expansion_witness :
    (c5Event.type = some "PushEvent" ∧ c5Event.payload = some c5Payload
      ∧ c5Payload.commits = some
          [{ sha := "s1", message := some "one\nbody", authorName := none },
           { sha := "s2", message := some "two", authorName := some "Al" },
           { sha := "s3", message := some "three", authorName := none }])
    ∧ (eventToFeedItems c5Event).length
        = ([{ sha := "s1", message := some "one\nbody", authorName := none },
            { sha := "s2", message := some "two", authorName := some "Al" },
            { sha := "s3", message := some "three", authorName := none }] :
            List CommitObj).length :=
  ⟨⟨rfl, rfl, rfl⟩,
   (eventToFeedItems_push_expansion c5Event c5Payload
      [{ sha := "s1", message := some "one\nbody", authorName := none },
       { sha := "s2", message := some "two", authorName := some "Al" },
       { sha := "s3", message := some "three", authorName := none }]
      rfl rfl rfl (by decide)).1⟩

/-- C8: an event whose item construction throws contributes zero feed
items, and the feed rebuilt from a store whose batch contains the
malformed event equals the feed rebuilt after removing that single event
from the batch — sibling events are unaffected. -/
theorem malformed_event_isolation (getTime : String → Int) (cfg : AppConfig)
    (store : DataStore) (ev : RawEvent) (k : String) (pre post : List RawEvent)
    (hmal : eventToFeedItemsCore ev = none)
    (hbatch : mapGet store.repoEvents k = some (pre ++ ev :: post)) :
    eventToFeedItems ev = []
    ∧ (rebuildGlobalFeed getTime cfg store).feedItems
        = (rebuildGlobalFeed getTime cfg
            { store with
                repoEvents :=
                  mapSet store.repoEvents k (pre ++ post) }).feedItems := by
  have hempty : eventToFeedItems ev = [] := by
    simp [eventToFeedItems, hmal]
  refine ⟨hempty, ?_⟩
  have hcand : feedCandidatesRaw cfg store
      = feedCandidatesRaw cfg
          { store with
              repoEvents := mapSet store.repoEvents k (pre ++ post) } := by
    obtain ⟨p, q, h1, h2⟩ :=
      mapSet_values_split store.repoEvents k (pre ++ ev :: post) (pre ++ post)
        hbatch
    simp only [feedCandidatesRaw]
    rw [h1, h2]
    simp [List.flatten_append, List.flatMap_append, hempty]
  simp only [rebuildGlobalFeed, hcand]

/-- Malformed push event (a commit without a `message`) for the closed
instance of C8. -/
def c8Event : RawEvent :=
  { type := some "PushEvent", repoTag := "o/r", actor := none,
    created_at := "2024-01-02T03:04:05Z",
    payload := some { EventPayload.empty with
      ref := some "refs/heads/main",
      commits := some [{ sha := "s1", message := none,
                         authorName := none }] } }

/-- Concrete store whose single batch holds only the malformed event,
for the closed instance of C8. -/
def c8Store : DataStore :=
  { repoInfos := [], repoEvents := [("o/r", [c8Event])], feedItems := [],
    commitStats := [], qualityReports := [] }

/-- Concrete configuration for the closed instance of C8. -/
def c8Cfg : AppConfig :=
  { repos := [{ id := "o/r", name := "Repo" }], feedLimit := 120 }

/-- Closed instance of C8: the malformed event contributes zero items and
its removal leaves the rebuilt feed unchanged. -/
theorem malformed_event_isolation_witness :
    (eventToFeedItemsCore c8Event = none
      ∧ mapGet c8Store.repoEvents "o/r" = some ([] ++ c8Event :: []))
    ∧ eventToFeedItems c8Event = []
    ∧ (rebuildGlobalFeed (fun _ => 0) c8Cfg c8Store).feedItems
        = (rebuildGlobalFeed (fun _ => 0) c8Cfg
            { c8Store with
                repoEvents :=
                  mapSet c8Store.repoEvents "o/r" ([] ++ []) }).feedItems :=
  ⟨⟨by decide, by decide⟩,
   (malformed_event_isolation (fun _ => 0) c8Cfg c8Store c8Event "o/r" [] []
      (by decide) (by decide)).1,
   (malformed_event_isolation (fun _ => 0) c8Cfg c8Store c8Event "o/r" [] []
      (by decide) (by decide)).2⟩

/-- Concrete successful metadata response whose upstream `pushed_at` and
`updated_at` differ, for C4. -/
def c4Response : HttpResponse RepoApiResponse :=
  { status := 200, statusText := "OK", etag := some "W/abc",
    xRateLimitLimit := some 5000, xRateLimitRemaining := some 4999,
    xRateLimitReset := some 1700000000, bodyText := "",
    bodyJson :=
      { html_url := "https://github.com/octo/repo", description := some "demo",
        stargazers_count := 1, forks_count := 2, open_issues_count := 3,
        pushed_at := "2024-01-01T00:00:00Z",
        updated_at := "2024-06-02T00:00:00Z",
        default_branch := "main" } }

/-- C4: evaluation of the code at the failing input.  On a successful
metadata fetch whose upstream resource was last pushed at
`2024-01-01T00:00:00Z` but last updated at `2024-06-02T00:00:00Z`,
`getRepoInfo` fills the returned `RepoInfo`'s `pushed_at` attribute with
the upstream `updated_at` value — not with the upstream last-pushed
timestamp, contradicting the field's own name and the claim. -/
theorem getRepoInfo_pushed_at_divergence :
    (getRepoInfo "octo/repo" c4Response ClientState.initial).1
      = .ok (some
          { repo := "octo/repo", html_url := "https://github.com/octo/repo",
            description := some "demo", stargazers_count := 1,
            forks_count := 2, open_issues_count := 3,
            pushed_at := "2024-06-02T00:00:00Z", default_branch := "main" })
    ∧ "2024-06-02T00:00:00Z" = c4Response.bodyJson.updated_at
    ∧ "2024-06-02T00:00:00Z" ≠ c4Response.bodyJson.pushed_at := by
  refine ⟨rfl, rfl, by decide⟩
